import Mathlib

/-!
Verification of `causality/estimation/parametric.py` (DifferenceInDifferences
and PropensityScoreMatching) against its natural-language specification.

The tabular data model is a shallow embedding of the pandas DataFrames the
source manipulates: a frame is a list of column names together with a list of
rows, each row a list of rational values (floating-point arithmetic is
embedded as exact arithmetic over `ℚ`).  Fallible pandas/Python operations
(column lookup, division by zero, unresolved names) return `Except PyErr`.
The external statistical collaborators (statsmodels OLS/RLM and Logit,
sklearn NearestNeighbors) are abstracted as explicit function parameters, so
every theorem quantifies over their behaviour.
-/

namespace Causality

/-- Kinds of Python exceptions relevant to this development.  `keyError`,
`nameError`, `valueError` and `zeroDivisionError` are the built-in Python
exceptions the source can actually raise.  `dataError` and `estimationError`
are modelled from the spec: the spec's §7 error taxonomy names `DataError`
and `EstimationError` classes that appear nowhere under `src/`; they are
included so that statements about them can be formalised. -/
inductive PyErr where
  | keyError : PyErr
  | nameError : PyErr
  | valueError : PyErr
  | zeroDivisionError : PyErr
  | dataError : PyErr
  | estimationError : PyErr
deriving DecidableEq, Repr

/-- Shallow embedding of a pandas DataFrame: named columns and rectangular
rows of rationals.  Rectangularity and column-name uniqueness are not baked
into the type; they are stated as the well-formedness predicate `WF` below
(every frame built by pandas satisfies it). -/
structure DataFrame where
  cols : List String
  rows : List (List ℚ)
deriving DecidableEq, Repr

/-- First position of a name in a list of column names. -/
def findCol : List String → String → Option ℕ
  | [], _ => none
  | n :: rest, c => if n = c then some 0 else (findCol rest c).map (· + 1)

/-- Position of a column name in the frame's column list. -/
def DataFrame.colIdx (df : DataFrame) (c : String) : Option ℕ :=
  findCol df.cols c

/-- Embedding of `X[c]`: the column's values, or a Python `KeyError` when the
frame has no column named `c`. -/
def DataFrame.getCol (df : DataFrame) (c : String) : Except PyErr (List ℚ) :=
  match df.colIdx c with
  | none => .error .keyError
  | some i => .ok (df.rows.map (fun r => r.getD i 0))

/-- Embedding of the row filter `X[X[c] == v]`: keeps the rows whose value in
column `c` equals `v`; `KeyError` when the column is missing. -/
def DataFrame.filterEq (df : DataFrame) (c : String) (v : ℚ) :
    Except PyErr DataFrame :=
  match df.colIdx c with
  | none => .error .keyError
  | some i => .ok ⟨df.cols, df.rows.filter (fun r => decide (r.getD i 0 = v))⟩

/-- Embedding of the column projection `X[[c1, ..., ck]]`: a new frame with
exactly the requested columns in the requested order; `KeyError` when any is
missing. -/
def DataFrame.select (df : DataFrame) (names : List String) :
    Except PyErr DataFrame :=
  if names.all (fun n => (df.colIdx n).isSome) then
    .ok ⟨names, df.rows.map (fun r =>
      names.map (fun n => r.getD ((df.colIdx n).getD 0) 0))⟩
  else
    .error .keyError

/-- Embedding of the column assignment `X.loc[:, c] = vs` (which pandas
performs in place on the caller's frame): overwrite the column when present,
otherwise append it on the right. -/
def DataFrame.setCol (df : DataFrame) (c : String) (vs : List ℚ) : DataFrame :=
  match df.colIdx c with
  | some i => ⟨df.cols, (df.rows.zip vs).map (fun p => p.1.set i p.2)⟩
  | none => ⟨df.cols ++ [c], (df.rows.zip vs).map (fun p => p.1 ++ [p.2])⟩

/-- Well-formedness of a frame: distinct column names and rectangular rows.
Every frame a pandas computation constructs satisfies this. -/
def DataFrame.WF (df : DataFrame) : Prop :=
  df.cols.Nodup ∧ ∀ r ∈ df.rows, r.length = df.cols.length

instance (df : DataFrame) : Decidable df.WF := by
  unfold DataFrame.WF; infer_instance

/-- Number of entries of a list equal to a given value. -/
def countEq (l : List ℚ) (v : ℚ) : ℕ :=
  l.countP (fun x => decide (x = v))

/-- Embedding of `pandas.Series.mean`: sum divided by length (in `ℚ`, the
empty series gives `0/0 = 0`, standing in for pandas' NaN; the theorems below
only evaluate means of series the source guarantees nonempty or whose value
cancels structurally). -/
def mean (l : List ℚ) : ℚ :=
  l.sum / l.length

/-- Embedding of Python float division, which raises `ZeroDivisionError` on a
zero denominator. -/
def pyDiv (a b : ℚ) : Except PyErr ℚ :=
  if b = 0 then .error .zeroDivisionError else .ok (a / b)

/-- Embedding of Python's `x % 2` on the rationals (used by the source only
on the values produced by `assignment + 1`). -/
def pymod2 (x : ℚ) : ℚ :=
  x - 2 * ⌊x / 2⌋

/-- Result of fitting the DiD regression and extracting the `did` row of the
parameter/confidence tables: `result.conf_int().ix['did']` gives
(`lo`, `hi`) and `result.params['did']` gives `point`. -/
structure RegResult where
  lo : ℚ
  point : ℚ
  hi : ℚ

/-- Abstract interface of the external regression collaborator
(statsmodels `OLS`/`RLM`): it receives the endogenous vector `df['y']` and
the design rows `df[['t', 'assignment', 'did', 'intercept']]`, and either
converges to a `RegResult` or fails with some Python exception. -/
def RegFit : Type :=
  List ℚ → List (List ℚ) → Except PyErr RegResult

/-- Embedding of parametric.py lines 35-51: the panel-form dataset.  The four
blocks test-pre, test-post, control-pre, control-post are stacked in source
order; each row carries `y`, `assignment`, `t`, `did = t * assignment` and
`intercept = 1`. -/
def did_panel (test_initial test_final control_initial control_final : List ℚ) :
    DataFrame :=
  let block := fun (ys : List ℚ) (a t : ℚ) => ys.map (fun y => [y, a, t, t * a, 1])
  ⟨["y", "assignment", "t", "did", "intercept"],
    block test_initial 1 0 ++ block test_final 1 1
      ++ block control_initial 0 0 ++ block control_final 0 1⟩

/-- Embedding of `DifferenceInDifferences.average_treatment_effect`
(parametric.py lines 24-57).  The parameters `start`, `end_` and
`assignment` (defaults `'Start'`/`'End'`/`'Assignment'` in the source) are
declared but, exactly as in the source body, never used: lines 25-26 index
the frame with the hard-coded literals `'Assignment'`, `'Start'`, `'End'`.
The regression collaborator `fit` is an explicit parameter. -/
def average_treatment_effect (fit : RegFit) (X : DataFrame)
    (start end_ assignment : String) : Except PyErr (ℚ × ℚ × ℚ) := do
  let testF ← X.filterEq "Assignment" 1
  let test ← testF.select ["Start", "End"]
  let controlF ← X.filterEq "Assignment" 0
  let control ← controlF.select ["Start", "End"]
  let test_initial ← test.getCol "Start"
  let test_final ← test.getCol "End"
  let control_initial ← control.getCol "Start"
  let control_final ← control.getCol "End"
  let df := did_panel test_initial test_final control_initial control_final
  let y ← df.getCol "y"
  let design ← df.select ["t", "assignment", "did", "intercept"]
  let result ← fit y design.rows
  return (result.lo, result.point, result.hi)

/-- Embedding of `DifferenceInDifferences.test_parallel_trend`
(parametric.py lines 59-75): true iff the confidence interval contains 0. -/
def test_parallel_trend (fit : RegFit) (X : DataFrame)
    (start end_ assignment : String) : Except PyErr Bool := do
  let (lower, _, upper) ← average_treatment_effect fit X start end_ assignment
  if lower ≤ 0 ∧ 0 ≤ upper then
    return true
  return false

/-- Abstract interface of the fitted logistic model returned by the external
`statsmodels.Logit(...).fit()` collaborator: a `predict` function producing
one probability per design row (the one-prediction-per-row contract of the
library is recorded as `predict_len`). -/
structure LogitModel where
  predict : List (List ℚ) → List ℚ
  predict_len : ∀ d, (predict d).length = d.length

/-- Abstract interface of the external logistic-regression fitting
collaborator `Logit(y, design).fit()`: it either converges to a fitted model
or fails with some Python exception (e.g. perfect separation). -/
def LogitFit : Type :=
  List ℚ → List (List ℚ) → Except PyErr LogitModel

/-- Abstract interface of a fitted sklearn `NearestNeighbors` index: a
1-dimensional k-nearest-neighbour query returning the matched control-row
indices. -/
structure NNModel where
  kneighbors : ℚ → List ℕ

/-- Abstract interface of the external `NearestNeighbors(...).fit(data)`
collaborator: given `n_neighbors` and the 1-dimensional training data, it
either produces a fitted index or fails with some Python exception (sklearn
raises `ValueError` when the training set is empty). -/
def NNFit : Type :=
  ℕ → List ℚ → Except PyErr NNModel

/-- Sorted distinct values of a column, the category order `pd.get_dummies`
uses for a numeric column. -/
def sortedDedup (l : List ℚ) : List ℚ :=
  l.dedup.mergeSort (fun a b => decide (a ≤ b))

/-- Embedding of `pd.get_dummies(X[[c]], prefix=c)`: one indicator column per
category, named by the category value. -/
def dummyColumns (c : String) (vals : List ℚ) : List (String × List ℚ) :=
  (sortedDedup vals).map (fun v =>
    (c ++ "_" ++ toString v, vals.map (fun x => if x = v then (1 : ℚ) else 0)))

/-- Embedding of the confounder loop of `score` (parametric.py lines
100-113): for each `(confounder, var_type)` pair in order, an `'o'` or `'u'`
type yields the dummy columns (all of them when there is a single category,
otherwise all but the first), and any other type passes the raw column
through; the column lookup on `X` raises `KeyError` when the confounder is
missing.  The result lists, in order, exactly the columns the source
accumulates in `regression_confounders`. -/
def confounderColumns (X : DataFrame) :
    List (String × String) → Except PyErr (List (String × List ℚ))
  | [] => .ok []
  | (c, t) :: rest => do
    let vals ← X.getCol c
    let cs :=
      if t = "o" ∨ t = "u" then
        let ds := dummyColumns c vals
        if ds.length = 1 then ds else ds.drop 1
      else
        [(c, vals)]
    let others ← confounderColumns X rest
    return cs ++ others

/-- Embedding of `PropensityScoreMatching.score` (parametric.py lines
84-122).  The component's mutable attribute `self.propensity_score_model` is
threaded explicitly as `st`; the logistic collaborator `lf` is an explicit
parameter.  In the source, line 121 (`X.loc[:, 'propensity score'] = ...`)
mutates the caller's frame in place and line 122 returns that very object,
so the frame in the result is simultaneously the returned value and the
caller's table after the call. -/
def score (lf : LogitFit) (st : Option LogitModel) (X : DataFrame)
    (confounder_types : List (String × String)) (assignment : String)
    (store_model_fit : Bool) (intercept : Bool) :
    Except PyErr (DataFrame × Option LogitModel) := do
  let y ← X.getCol assignment
  let ccols ← confounderColumns X confounder_types
  let ccols := if intercept then
      ccols ++ [("intercept", X.rows.map (fun _ => (1 : ℚ)))]
    else ccols
  let design := (List.range X.rows.length).map (fun i =>
    ccols.map (fun p => p.2.getD i 0))
  let model ← lf y design
  let st' := if store_model_fit then some model else st
  let preds := model.predict design
  return (X.setCol "propensity score" preds, st')

/-- Embedding of `PropensityScoreMatching.match` (parametric.py lines
124-143); named `psmMatch` because `match` is reserved in Lean.  The treated
rows' match lists are returned alongside the treated frame (the source
stores them in a non-numeric `'matches'` column of the treated frame; the
embedding keeps that column out-of-band since frame cells are numeric).
The nearest-neighbour collaborator `nf` is an explicit parameter. -/
def psmMatch (nf : NNFit) (n_neighbors : ℕ) (X : DataFrame)
    (assignment score_col : String) :
    Except PyErr (DataFrame × List (List ℕ) × DataFrame) := do
  let treatments ← X.filterEq assignment 1
  let control ← X.filterEq assignment 0
  let cScores ← control.getCol score_col
  let nn ← nf n_neighbors cScores
  let tScores ← treatments.getCol score_col
  return (treatments, tScores.map nn.kneighbors, control)

/-- Embedding of the inner `get_matched_outcome` of `estimate_treatments`
(parametric.py lines 159-160): each matched control outcome contributes with
weight `1 / len(matches)`. -/
def get_matched_outcome (controlOutcomes : List ℚ) (ms : List ℕ) : ℚ :=
  (ms.map (fun i => controlOutcomes.getD i 0 / (ms.length : ℚ))).sum

/-- Embedding of `PropensityScoreMatching.estimate_treatments`
(parametric.py lines 145-162): adds the `'control outcome'` column to the
treated frame, one matched-outcome average per treated row. -/
def estimate_treatments (treatments : DataFrame) (tMatches : List (List ℕ))
    (control : DataFrame) (outcome : String) : Except PyErr DataFrame := do
  let cOut ← control.getCol outcome
  return treatments.setCol "control outcome" (tMatches.map (get_matched_outcome cOut))

/-- Embedding of `PropensityScoreMatching.estimate_ATT` (parametric.py lines
164-182).  The source's line 177 calls `self.score` with `store_model_fit`
left at its default `False` and `intercept` at its default `True`.  Because
`score` mutates the caller's frame in place, the mutated frame is part of
the result (middle component), along with the threaded model attribute. -/
def estimate_ATT (lf : LogitFit) (nf : NNFit) (st : Option LogitModel)
    (X : DataFrame) (assignment outcome : String)
    (confounder_types : List (String × String)) (n_neighbors : ℕ) :
    Except PyErr (ℚ × DataFrame × Option LogitModel) := do
  let (X1, st1) ← score lf st X confounder_types assignment false true
  let (treatments, tMatches, control) ←
    psmMatch nf n_neighbors X1 assignment "propensity score"
  let treatments1 ← estimate_treatments treatments tMatches control outcome
  let y_hat_treated ← treatments1.getCol outcome
  let y_hat_control ← treatments1.getCol "control outcome"
  return (mean y_hat_treated - mean y_hat_control, X1, st1)

/-- Embedding of `PropensityScoreMatching.estimate_ATC` (parametric.py lines
184-199): flips the assignment indicator on a copy (`df = X.copy()`, so the
caller's frame is not mutated) via `(assignment + 1) % 2` and negates the
resulting ATT-style estimate. -/
def estimate_ATC (lf : LogitFit) (nf : NNFit) (st : Option LogitModel)
    (X : DataFrame) (assignment outcome : String)
    (confounder_types : List (String × String)) (n_neighbors : ℕ) :
    Except PyErr (ℚ × Option LogitModel) := do
  let aCol ← X.getCol assignment
  let df := X.setCol assignment (aCol.map (fun v => pymod2 (v + 1)))
  let (att, _, st1) ←
    estimate_ATT lf nf st df assignment outcome confounder_types n_neighbors
  return (-att, st1)

/-- Embedding of `PropensityScoreMatching.estimate_ATE` (parametric.py lines
201-218): ATT, then ATC (computed on the frame as mutated by the ATT call,
exactly as in the source), then the treated fraction
`len(X[X[assignment] == 1]) / float(len(X))` (a Python `ZeroDivisionError`
on an empty frame), combined as `p * att + (1 - p) * atc`. -/
def estimate_ATE (lf : LogitFit) (nf : NNFit) (st : Option LogitModel)
    (X : DataFrame) (assignment outcome : String)
    (confounder_types : List (String × String)) (n_neighbors : ℕ) :
    Except PyErr (ℚ × DataFrame × Option LogitModel) := do
  let (att, X1, st1) ←
    estimate_ATT lf nf st X assignment outcome confounder_types n_neighbors
  let (atc, st2) ←
    estimate_ATC lf nf st1 X1 assignment outcome confounder_types n_neighbors
  let aCol ← X1.getCol assignment
  let p ← pyDiv (countEq aCol 1 : ℚ) (X1.rows.length : ℚ)
  return (p * att + (1 - p) * atc, X1, st2)

/-- Embedding of `PropensityScoreMatching.calculate_balance` (parametric.py
lines 223-226).  Line 224 computes the numerator (splitting on `d` and
looking up the `x` entry of the column-wise means, each step a possible
`KeyError`); line 225 then references `np`, but the module never imports
numpy, so the reference unconditionally raises `NameError` and the function
can never return a value. -/
def calculate_balance (X : DataFrame) (x d : String) : Except PyErr ℚ := do
  let treatedRows ← X.filterEq d 1
  let treatedVals ← treatedRows.getCol x
  let controlRows ← X.filterEq d 0
  let controlVals ← controlRows.getCol x
  let _numerator := mean treatedVals - mean controlVals
  Except.error PyErr.nameError

/-! Concrete instances of the external collaborators and concrete frames,
used to evaluate the embedded pipelines on explicit inputs. -/

/-- A logistic collaborator whose fitted model predicts the constant score 1
for every row (any deterministic collaborator suffices for the structural
claims; integer-valued scores keep concrete evaluation exact). -/
def constLogitFit : LogitFit := fun _ _ =>
  .ok ⟨fun d => d.map (fun _ => (1 : ℚ)), fun d => by simp⟩

/-- A nearest-neighbour collaborator whose index always answers with the
single control index 0. -/
def constNN : NNFit := fun _ _ => .ok ⟨fun _ => [0]⟩

/-- Modelled from the spec: the external sklearn `NearestNeighbors`
collaborator of §6, whose `fit` raises `ValueError` on an empty training
set (the behaviour `match` relies on when the control subset is empty);
on nonempty data the query function itself is irrelevant to the claims and
answers with no neighbours. -/
def sklearnNN : NNFit := fun _ d =>
  if d.isEmpty then .error .valueError else .ok ⟨fun _ => []⟩

/-- A DiD regression collaborator that always converges to the zero fit. -/
def fitOk : RegFit := fun _ _ => .ok ⟨0, 0, 0⟩

/-- A DiD regression collaborator that always fails, standing for a
non-convergent robust fit. -/
def failFit : RegFit := fun _ _ => .error .valueError

/-- A two-row PSM table: one treated row (outcome 5, confounder 2) and one
control row (outcome 3, confounder 1). -/
def egTable : DataFrame :=
  ⟨["assignment", "outcome", "z"], [[1, 5, 2], [0, 3, 1]]⟩

/-- The `egTable` frame after in-place scoring by `constLogitFit`. -/
def egScored : DataFrame :=
  ⟨["assignment", "outcome", "z", "propensity score"],
   [[1, 5, 2, 1], [0, 3, 1, 1]]⟩

/-- A DiD table whose columns have been renamed to `A`/`S`/`E`. -/
def renamedDiD : DataFrame :=
  ⟨["A", "S", "E"], [[1, 10, 15], [0, 10, 10]]⟩

/-- A DiD table with 1 treated and 3 control rows. -/
def didTable4 : DataFrame :=
  ⟨["Assignment", "Start", "End"],
   [[1, 10, 15], [0, 10, 10], [0, 11, 11], [0, 12, 12]]⟩

/-- A DiD table lacking the required `Start` column. -/
def missingStartTable : DataFrame :=
  ⟨["Assignment", "End"], [[1, 15], [0, 10]]⟩

/-- A DiD table whose test partition (`Assignment` = 1) is empty. -/
def controlOnlyDiD : DataFrame :=
  ⟨["Assignment", "Start", "End"], [[0, 10, 10]]⟩

/-- A two-row PSM table with a single confounder `z`. -/
def egTagTable : DataFrame :=
  ⟨["assignment", "z"], [[1, 3], [0, 4]]⟩

/-- A scored PSM table with one treated row and no control rows. -/
def oneTreatedTable : DataFrame :=
  ⟨["assignment", "propensity score"], [[1, 1]]⟩

/-- A table for the balance diagnostic, with group column `d` and
confounder `x`. -/
def balanceTable : DataFrame :=
  ⟨["d", "x"], [[1, 3], [0, 5]]⟩

/-! Basic lemmas about the tabular embedding. -/

theorem except_bind_ok {α β ε : Type} (a : α) (f : α → Except ε β) :
    (Except.ok a >>= f : Except ε β) = f a := rfl

theorem except_bind_err {α β ε : Type} (e : ε) (f : α → Except ε β) :
    (Except.error e >>= f : Except ε β) = .error e := rfl

theorem except_pure {α ε : Type} (a : α) :
    (pure a : Except ε α) = .ok a := rfl

theorem findCol_eq_none_iff (l : List String) (c : String) :
    findCol l c = none ↔ c ∉ l := by
  induction l with
  | nil => simp [findCol]
  | cons n rest ih =>
    by_cases h : n = c
    · simp [findCol, h]
    · simp only [findCol, if_neg h, Option.map_eq_none', ih, List.mem_cons]
      constructor
      · intro hr hc
        rcases hc with hc | hc
        · exact h hc.symm
        · exact hr hc
      · intro hr hc
        exact hr (Or.inr hc)

theorem findCol_get (l : List String) (c : String) (i : ℕ)
    (h : findCol l c = some i) : ∃ hi : i < l.length, l.get ⟨i, hi⟩ = c := by
  induction l generalizing i with
  | nil => simp [findCol] at h
  | cons n rest ih =>
    by_cases hn : n = c
    · simp only [findCol, if_pos hn, Option.some.injEq] at h
      subst h
      exact ⟨by simp, hn⟩
    · simp only [findCol, if_neg hn, Option.map_eq_some'] at h
      obtain ⟨j, hj, hij⟩ := h
      obtain ⟨hjl, hget⟩ := ih j hj
      subst hij
      refine ⟨by simpa using Nat.succ_lt_succ hjl, ?_⟩
      simpa using hget

theorem findCol_append_some (l l2 : List String) (c : String) (i : ℕ)
    (h : findCol l c = some i) : findCol (l ++ l2) c = some i := by
  induction l generalizing i with
  | nil => simp [findCol] at h
  | cons n rest ih =>
    by_cases hn : n = c
    · simp only [findCol, if_pos hn, Option.some.injEq] at h
      simp [findCol, hn, ← h]
    · simp only [findCol, if_neg hn, Option.map_eq_some'] at h
      obtain ⟨j, hj, hij⟩ := h
      simp [findCol, hn, ih j hj, ← hij]

theorem findCol_append_none (l l2 : List String) (c : String)
    (h : findCol l c = none) :
    findCol (l ++ l2) c = (findCol l2 c).map (· + l.length) := by
  induction l with
  | nil =>
    simp only [List.nil_append, List.length_nil]
    cases hx : findCol l2 c <;> simp [hx]
  | cons n rest ih =>
    by_cases hn : n = c
    · simp [findCol, hn] at h
    · simp only [findCol, if_neg hn, Option.map_eq_none'] at h
      rw [List.cons_append]
      show (if n = c then some 0 else (findCol (rest ++ l2) c).map (· + 1))
          = (findCol l2 c).map (· + (n :: rest).length)
      rw [if_neg hn, ih h]
      cases hx : findCol l2 c with
      | none => simp
      | some j =>
        simp only [Option.map_some', Option.some.injEq, List.length_cons]
        omega

theorem findCol_singleton_self (c : String) : findCol [c] c = some 0 := by
  simp [findCol]

theorem findCol_singleton_ne (c d : String) (h : d ≠ c) :
    findCol [d] c = none := by
  simp [findCol, h]

theorem zipmap_length {α β γ : Type} (rows : List α) (vs : List β)
    (f : α × β → γ) (hlen : vs.length = rows.length) :
    ((rows.zip vs).map f).length = rows.length := by
  simp [List.length_zip, hlen]

theorem zipset_map_getD_ne (rows : List (List ℚ)) (vs : List ℚ) (i j : ℕ)
    (hij : i ≠ j) (hlen : vs.length = rows.length) :
    ((rows.zip vs).map (fun p => p.1.set i p.2)).map (fun r => r.getD j 0)
      = rows.map (fun r => r.getD j 0) := by
  induction rows generalizing vs with
  | nil => simp
  | cons r rs ih =>
    cases vs with
    | nil => simp at hlen
    | cons v vt =>
      simp only [List.length_cons] at hlen
      simp only [List.zip_cons_cons, List.map_cons, List.cons.injEq]
      refine ⟨?_, ih vt (by omega)⟩
      simp [List.getD, List.getElem?_set_ne hij]

theorem zipset_map_getD_self (rows : List (List ℚ)) (vs : List ℚ) (i : ℕ)
    (hlen : vs.length = rows.length) (hi : ∀ r ∈ rows, i < r.length) :
    ((rows.zip vs).map (fun p => p.1.set i p.2)).map (fun r => r.getD i 0)
      = vs := by
  induction rows generalizing vs with
  | nil => cases vs <;> simp_all
  | cons r rs ih =>
    cases vs with
    | nil => simp at hlen
    | cons v vt =>
      simp only [List.length_cons] at hlen
      simp only [List.zip_cons_cons, List.map_cons, List.cons.injEq]
      have hir : i < r.length := hi r (by simp)
      refine ⟨?_, ih vt (by omega) (fun r' hr' => hi r' (by simp [hr']))⟩
      simp [List.getD, List.getElem?_set_self, hir]

theorem zipappend_map_getD_lt (rows : List (List ℚ)) (vs : List ℚ) (j : ℕ)
    (hlen : vs.length = rows.length) (hj : ∀ r ∈ rows, j < r.length) :
    ((rows.zip vs).map (fun p => p.1 ++ [p.2])).map (fun r => r.getD j 0)
      = rows.map (fun r => r.getD j 0) := by
  induction rows generalizing vs with
  | nil => simp
  | cons r rs ih =>
    cases vs with
    | nil => simp at hlen
    | cons v vt =>
      simp only [List.length_cons] at hlen
      simp only [List.zip_cons_cons, List.map_cons, List.cons.injEq]
      have hjr : j < r.length := hj r (by simp)
      refine ⟨?_, ih vt (by omega) (fun r' hr' => hj r' (by simp [hr']))⟩
      simp [List.getD, List.getElem?_append_left hjr]

theorem zipappend_map_getD_end (rows : List (List ℚ)) (vs : List ℚ) (L : ℕ)
    (hlen : vs.length = rows.length) (hL : ∀ r ∈ rows, r.length = L) :
    ((rows.zip vs).map (fun p => p.1 ++ [p.2])).map (fun r => r.getD L 0)
      = vs := by
  induction rows generalizing vs with
  | nil => cases vs <;> simp_all
  | cons r rs ih =>
    cases vs with
    | nil => simp at hlen
    | cons v vt =>
      simp only [List.length_cons] at hlen
      simp only [List.zip_cons_cons, List.map_cons, List.cons.injEq]
      have hr : r.length = L := hL r (by simp)
      refine ⟨?_, ih vt (by omega) (fun r' hr' => hL r' (by simp [hr']))⟩
      subst hr
      simp [List.getD, List.getElem?_append_right (Nat.le_refl r.length)]

theorem zipset_zipset_same (rows : List (List ℚ)) (v w : List ℚ) (i : ℕ)
    (hv : v.length = rows.length) :
    (((rows.zip v).map (fun p => p.1.set i p.2)).zip w).map (fun p => p.1.set i p.2)
      = (rows.zip w).map (fun p => p.1.set i p.2) := by
  induction rows generalizing v w with
  | nil => simp
  | cons r rs ih =>
    cases v with
    | nil => simp at hv
    | cons a at' =>
      cases w with
      | nil => simp
      | cons b bt =>
        simp only [List.length_cons] at hv
        simp only [List.zip_cons_cons, List.map_cons, List.cons.injEq]
        exact ⟨List.set_set a b r i, ih at' bt (by omega)⟩

theorem zipappend_zipset_end (rows : List (List ℚ)) (v w : List ℚ) (L : ℕ)
    (hv : v.length = rows.length) (hL : ∀ r ∈ rows, r.length = L) :
    (((rows.zip v).map (fun p => p.1 ++ [p.2])).zip w).map (fun p => p.1.set L p.2)
      = (rows.zip w).map (fun p => p.1 ++ [p.2]) := by
  induction rows generalizing v w with
  | nil => simp
  | cons r rs ih =>
    cases v with
    | nil => simp at hv
    | cons a at' =>
      cases w with
      | nil => simp
      | cons b bt =>
        simp only [List.length_cons] at hv
        simp only [List.zip_cons_cons, List.map_cons, List.cons.injEq]
        have hr : r.length = L := hL r (by simp)
        refine ⟨?_, ih at' bt (by omega)
          (fun r' hr' => hL r' (by simp [hr']))⟩
        subst hr
        rw [List.set_append_right _ _ (Nat.le_refl r.length)]
        simp [List.set]

theorem DataFrame.colIdx_eq_none_iff (df : DataFrame) (c : String) :
    df.colIdx c = none ↔ c ∉ df.cols :=
  findCol_eq_none_iff df.cols c

theorem DataFrame.colIdx_lt (df : DataFrame) (c : String) (i : ℕ)
    (h : df.colIdx c = some i) : i < df.cols.length :=
  (findCol_get df.cols c i h).1

theorem DataFrame.getCol_ok_length (df : DataFrame) (c : String)
    (vals : List ℚ) (h : df.getCol c = .ok vals) :
    vals.length = df.rows.length := by
  unfold DataFrame.getCol at h
  cases hidx : df.colIdx c with
  | none => simp [hidx] at h
  | some i =>
    simp only [hidx, Except.ok.injEq] at h
    simp [← h]

theorem DataFrame.getCol_eq_ok (df : DataFrame) (c : String) (i : ℕ)
    (h : df.colIdx c = some i) :
    df.getCol c = .ok (df.rows.map (fun r => r.getD i 0)) := by
  simp [DataFrame.getCol, h]

theorem DataFrame.getCol_eq_err (df : DataFrame) (c : String)
    (h : c ∉ df.cols) : df.getCol c = .error .keyError := by
  simp [DataFrame.getCol, (df.colIdx_eq_none_iff c).mpr h]

theorem DataFrame.setCol_rows_length (df : DataFrame) (c : String)
    (vs : List ℚ) (hlen : vs.length = df.rows.length) :
    (df.setCol c vs).rows.length = df.rows.length := by
  unfold DataFrame.setCol
  cases df.colIdx c <;> simp [zipmap_length _ _ _ hlen]

theorem DataFrame.setCol_WF (df : DataFrame) (c : String) (vs : List ℚ)
    (hwf : df.WF) : (df.setCol c vs).WF := by
  obtain ⟨hnd, hrect⟩ := hwf
  unfold DataFrame.setCol
  cases hidx : df.colIdx c with
  | some i =>
    refine ⟨hnd, ?_⟩
    intro r hr
    simp only [List.mem_map] at hr
    obtain ⟨p, hp, hpr⟩ := hr
    have hmem := List.of_mem_zip hp
    simp [← hpr, List.length_set, hrect p.1 hmem.1]
  | none =>
    refine ⟨?_, ?_⟩
    · have hc : c ∉ df.cols := (df.colIdx_eq_none_iff c).mp hidx
      simp [List.nodup_append, hnd, hc]
    · intro r hr
      simp only [List.mem_map] at hr
      obtain ⟨p, hp, hpr⟩ := hr
      have hmem := List.of_mem_zip hp
      simp [← hpr, hrect p.1 hmem.1]

theorem DataFrame.getCol_setCol_self (df : DataFrame) (c : String)
    (vs : List ℚ) (hwf : df.WF) (hlen : vs.length = df.rows.length) :
    (df.setCol c vs).getCol c = .ok vs := by
  obtain ⟨_, hrect⟩ := hwf
  unfold DataFrame.setCol
  cases hidx : df.colIdx c with
  | some i =>
    have hi := df.colIdx_lt c i hidx
    rw [DataFrame.getCol_eq_ok _ c i (by simpa [DataFrame.colIdx] using hidx)]
    rw [zipset_map_getD_self df.rows vs i hlen
      (fun r hr => by rw [hrect r hr]; exact hi)]
  | none =>
    have hcols : findCol (df.cols ++ [c]) c = some df.cols.length := by
      rw [findCol_append_none df.cols [c] c hidx, findCol_singleton_self]
      simp
    rw [DataFrame.getCol_eq_ok _ c df.cols.length (by simpa [DataFrame.colIdx] using hcols)]
    rw [zipappend_map_getD_end df.rows vs df.cols.length hlen hrect]

theorem DataFrame.getCol_setCol_ne (df : DataFrame) (c c' : String)
    (vs : List ℚ) (hwf : df.WF) (hlen : vs.length = df.rows.length)
    (hne : c' ≠ c) : (df.setCol c vs).getCol c' = df.getCol c' := by
  obtain ⟨_, hrect⟩ := hwf
  unfold DataFrame.setCol
  cases hidx : df.colIdx c with
  | some i =>
    cases hidx' : df.colIdx c' with
    | none =>
      rw [DataFrame.getCol_eq_err _ c' (by
        simpa using (DataFrame.colIdx_eq_none_iff df c').mp hidx'),
        DataFrame.getCol_eq_err df c' ((DataFrame.colIdx_eq_none_iff df c').mp hidx')]
    | some j =>
      have hij : i ≠ j := by
        intro hcontra
        subst hcontra
        obtain ⟨hi1, hg1⟩ := findCol_get df.cols c i hidx
        obtain ⟨hi2, hg2⟩ := findCol_get df.cols c' i hidx'
        exact hne (hg2 ▸ hg1 ▸ rfl)
      rw [DataFrame.getCol_eq_ok _ c' j (by simpa [DataFrame.colIdx] using hidx'),
        DataFrame.getCol_eq_ok df c' j hidx']
      rw [zipset_map_getD_ne df.rows vs i j hij hlen]
  | none =>
    cases hidx' : df.colIdx c' with
    | none =>
      have hcols : findCol (df.cols ++ [c]) c' = none := by
        rw [findCol_append_none df.cols [c] c' hidx', findCol_singleton_ne c' c
          (fun hcc => hne hcc.symm)]
        rfl
      rw [DataFrame.getCol_eq_err _ c' (by
        simpa using (findCol_eq_none_iff _ c').mp hcols),
        DataFrame.getCol_eq_err df c' ((DataFrame.colIdx_eq_none_iff df c').mp hidx')]
    | some j =>
      have hj := df.colIdx_lt c' j hidx'
      have hcols : findCol (df.cols ++ [c]) c' = some j :=
        findCol_append_some df.cols [c] c' j hidx'
      rw [DataFrame.getCol_eq_ok _ c' j (by simpa [DataFrame.colIdx] using hcols),
        DataFrame.getCol_eq_ok df c' j hidx']
      rw [zipappend_map_getD_lt df.rows vs j hlen
        (fun r hr => by rw [hrect r hr]; exact hj)]

theorem DataFrame.setCol_setCol_same (df : DataFrame) (c : String)
    (v w : List ℚ) (hwf : df.WF) (hv : v.length = df.rows.length) :
    (df.setCol c v).setCol c w = df.setCol c w := by
  obtain ⟨_, hrect⟩ := hwf
  unfold DataFrame.setCol
  cases hidx : df.colIdx c with
  | some i =>
    simp only [DataFrame.colIdx] at hidx ⊢
    rw [hidx]
    simp only [hidx]
    rw [zipset_zipset_same df.rows v w i hv]
  | none =>
    simp only [DataFrame.colIdx] at hidx ⊢
    have hcols : findCol (df.cols ++ [c]) c = some df.cols.length := by
      rw [findCol_append_none df.cols [c] c hidx, findCol_singleton_self]
      simp
    rw [hcols]
    dsimp only
    rw [zipappend_zipset_end df.rows v w df.cols.length hv hrect]

theorem zipset_zipset_comm (rows : List (List ℚ)) (v w : List ℚ) (i j : ℕ)
    (hij : i ≠ j) :
    (((rows.zip v).map (fun p => p.1.set i p.2)).zip w).map (fun p => p.1.set j p.2)
      = (((rows.zip w).map (fun p => p.1.set j p.2)).zip v).map (fun p => p.1.set i p.2) := by
  induction rows generalizing v w with
  | nil => simp
  | cons r rs ih =>
    cases v with
    | nil => simp
    | cons a at' =>
      cases w with
      | nil => simp
      | cons b bt =>
        simp only [List.zip_cons_cons, List.map_cons, List.cons.injEq]
        exact ⟨List.set_comm a b r hij, ih at' bt⟩

theorem zipappend_zipset_lt (rows : List (List ℚ)) (v w : List ℚ) (j : ℕ)
    (hj : ∀ r ∈ rows, j < r.length) :
    (((rows.zip v).map (fun p => p.1 ++ [p.2])).zip w).map (fun p => p.1.set j p.2)
      = (((rows.zip w).map (fun p => p.1.set j p.2)).zip v).map (fun p => p.1 ++ [p.2]) := by
  induction rows generalizing v w with
  | nil => simp
  | cons r rs ih =>
    cases v with
    | nil => simp
    | cons a at' =>
      cases w with
      | nil => simp
      | cons b bt =>
        simp only [List.zip_cons_cons, List.map_cons, List.cons.injEq]
        have hjr : j < r.length := hj r (by simp)
        refine ⟨?_, ih at' bt (fun r' hr' => hj r' (by simp [hr']))⟩
        rw [List.set_append_left _ _ hjr]

theorem DataFrame.setCol_eq_overwrite (df : DataFrame) (c : String)
    (vs : List ℚ) (i : ℕ) (h : df.colIdx c = some i) :
    df.setCol c vs
      = ⟨df.cols, (df.rows.zip vs).map (fun p => p.1.set i p.2)⟩ := by
  simp [DataFrame.setCol, h]

theorem DataFrame.setCol_eq_append (df : DataFrame) (c : String)
    (vs : List ℚ) (h : df.colIdx c = none) :
    df.setCol c vs
      = ⟨df.cols ++ [c], (df.rows.zip vs).map (fun p => p.1 ++ [p.2])⟩ := by
  simp [DataFrame.setCol, h]

theorem DataFrame.setCol_comm_present (df : DataFrame) (c c' : String)
    (v w : List ℚ) (j : ℕ) (hj : df.colIdx c' = some j) (hne : c ≠ c')
    (hwf : df.WF) :
    (df.setCol c v).setCol c' w = (df.setCol c' w).setCol c v := by
  obtain ⟨_, hrect⟩ := hwf
  have hjlt := df.colIdx_lt c' j hj
  cases hidx : df.colIdx c with
  | some i =>
    have hij : i ≠ j := by
      intro hcontra
      subst hcontra
      obtain ⟨hi1, hg1⟩ := findCol_get df.cols c i hidx
      obtain ⟨hi2, hg2⟩ := findCol_get df.cols c' i hj
      exact hne (hg2 ▸ hg1 ▸ rfl)
    rw [df.setCol_eq_overwrite c v i hidx, df.setCol_eq_overwrite c' w j hj]
    have h1 := DataFrame.setCol_eq_overwrite
      ⟨df.cols, (df.rows.zip v).map (fun p => p.1.set i p.2)⟩ c' w j hj
    have h2 := DataFrame.setCol_eq_overwrite
      ⟨df.cols, (df.rows.zip w).map (fun p => p.1.set j p.2)⟩ c v i hidx
    rw [h1, h2]
    exact congrArg (fun rs => DataFrame.mk df.cols rs)
      (zipset_zipset_comm df.rows v w i j hij)
  | none =>
    rw [df.setCol_eq_append c v hidx, df.setCol_eq_overwrite c' w j hj]
    have h1 := DataFrame.setCol_eq_overwrite
      ⟨df.cols ++ [c], (df.rows.zip v).map (fun p => p.1 ++ [p.2])⟩ c' w j
      (findCol_append_some df.cols [c] c' j hj)
    have h2 := DataFrame.setCol_eq_append
      ⟨df.cols, (df.rows.zip w).map (fun p => p.1.set j p.2)⟩ c v hidx
    rw [h1, h2]
    exact congrArg (fun rs => DataFrame.mk (df.cols ++ [c]) rs)
      (zipappend_zipset_lt df.rows v w j
        (fun r hr => by rw [hrect r hr]; exact hjlt))

theorem DataFrame.filterEq_eq_ok (df : DataFrame) (c : String) (v : ℚ)
    (i : ℕ) (h : df.colIdx c = some i) :
    df.filterEq c v
      = .ok ⟨df.cols, df.rows.filter (fun r => decide (r.getD i 0 = v))⟩ := by
  simp [DataFrame.filterEq, h]

theorem DataFrame.filterEq_eq_err (df : DataFrame) (c : String) (v : ℚ)
    (h : c ∉ df.cols) : df.filterEq c v = .error .keyError := by
  simp [DataFrame.filterEq, (df.colIdx_eq_none_iff c).mpr h]

theorem DataFrame.filterEq_ok_sub (df : DataFrame) (c : String) (v : ℚ)
    (T : DataFrame) (h : df.filterEq c v = .ok T) :
    T.cols = df.cols ∧ ∀ r ∈ T.rows, r ∈ df.rows := by
  unfold DataFrame.filterEq at h
  cases hidx : df.colIdx c with
  | none => simp [hidx] at h
  | some i =>
    simp only [hidx, Except.ok.injEq] at h
    subst h
    exact ⟨rfl, fun r hr => (List.mem_filter.mp hr).1⟩

theorem DataFrame.filterEq_ok_WF (df : DataFrame) (c : String) (v : ℚ)
    (T : DataFrame) (hwf : df.WF) (h : df.filterEq c v = .ok T) : T.WF := by
  obtain ⟨hcols, hsub⟩ := df.filterEq_ok_sub c v T h
  exact ⟨hcols ▸ hwf.1, fun r hr => by
    rw [hcols]
    exact hwf.2 r (hsub r hr)⟩

theorem DataFrame.select_eq_ok (df : DataFrame) (names : List String)
    (h : names.all (fun n => (df.colIdx n).isSome) = true) :
    df.select names
      = .ok ⟨names, df.rows.map (fun r =>
          names.map (fun n => r.getD ((df.colIdx n).getD 0) 0))⟩ := by
  simp [DataFrame.select, h]

theorem DataFrame.select_eq_err (df : DataFrame) (names : List String)
    (h : ¬ names.all (fun n => (df.colIdx n).isSome) = true) :
    df.select names = .error .keyError := by
  simp [DataFrame.select, h]

theorem DataFrame.select_ok_rows_length (df : DataFrame)
    (names : List String) (T : DataFrame) (h : df.select names = .ok T) :
    T.rows.length = df.rows.length := by
  unfold DataFrame.select at h
  by_cases hall : names.all (fun n => (df.colIdx n).isSome) = true
  · simp only [hall, if_true, Except.ok.injEq] at h
    simp [← h]
  · simp [hall] at h

/-! Shape lemmas for the PSM pipeline. -/

theorem score_ok_shape (lf : LogitFit) (st : Option LogitModel)
    (X : DataFrame) (conf : List (String × String)) (a : String)
    (store int : Bool) (X' : DataFrame) (st' : Option LogitModel)
    (h : score lf st X conf a store int = .ok (X', st')) :
    ∃ preds : List ℚ, preds.length = X.rows.length
      ∧ X' = X.setCol "propensity score" preds
      ∧ (store = false → st' = st) := by
  unfold score at h
  cases hy : X.getCol a with
  | error e => rw [hy, except_bind_err] at h; exact absurd h (by simp)
  | ok y =>
    rw [hy, except_bind_ok] at h
    cases hc : confounderColumns X conf with
    | error e => rw [hc, except_bind_err] at h; exact absurd h (by simp)
    | ok cc =>
      rw [hc, except_bind_ok] at h
      dsimp only at h
      cases hm : lf y ((List.range X.rows.length).map (fun i =>
          (if int = true then cc ++ [("intercept", X.rows.map (fun _ => (1 : ℚ)))]
            else cc).map (fun p => p.2.getD i 0))) with
      | error e => rw [hm, except_bind_err] at h; exact absurd h (by simp)
      | ok model =>
        rw [hm, except_bind_ok] at h
        simp only [except_pure, Except.ok.injEq, Prod.mk.injEq] at h
        refine ⟨_, ?_, h.1.symm, fun hst => ?_⟩
        · rw [model.predict_len]
          simp
        · rw [← h.2, hst]
          simp

theorem confounderColumns_setCol_ne (X : DataFrame) (c0 : String)
    (q : List ℚ) (conf : List (String × String)) (hwf : X.WF)
    (hlen : q.length = X.rows.length)
    (hconf : ∀ p ∈ conf, p.1 ≠ c0) :
    confounderColumns (X.setCol c0 q) conf = confounderColumns X conf := by
  induction conf with
  | nil => rfl
  | cons p rest ih =>
    obtain ⟨c, t⟩ := p
    simp only [confounderColumns]
    rw [X.getCol_setCol_ne c0 c q hwf hlen (hconf (c, t) (by simp))]
    have hrest := ih (fun p hp => hconf p (by simp [hp]))
    cases hy : X.getCol c with
    | error e => rw [except_bind_err, except_bind_err]
    | ok vals =>
      rw [except_bind_ok, except_bind_ok, hrest]

theorem map_const_eq {α β : Type} (l1 l2 : List α) (b : β)
    (h : l1.length = l2.length) :
    l1.map (fun _ => b) = l2.map (fun _ => b) := by
  induction l1 generalizing l2 with
  | nil => cases l2 <;> simp_all
  | cons x xs ih =>
    cases l2 with
    | nil => simp at h
    | cons y ys =>
      simp only [List.length_cons] at h
      simp [ih ys (by omega)]

theorem DataFrame.getCol_ok_colIdx (df : DataFrame) (c : String)
    (vals : List ℚ) (h : df.getCol c = .ok vals) :
    ∃ i, df.colIdx c = some i := by
  unfold DataFrame.getCol at h
  cases hidx : df.colIdx c with
  | none => simp [hidx] at h
  | some i => exact ⟨i, rfl⟩

theorem score_setCol_ps (lf : LogitFit) (st : Option LogitModel)
    (X : DataFrame) (conf : List (String × String)) (a : String)
    (store int : Bool) (q : List ℚ) (hwf : X.WF)
    (hlen : q.length = X.rows.length) (ha : a ≠ "propensity score")
    (hconf : ∀ p ∈ conf, p.1 ≠ "propensity score") :
    score lf st (X.setCol "propensity score" q) conf a store int
      = score lf st X conf a store int := by
  unfold score
  rw [X.getCol_setCol_ne "propensity score" a q hwf hlen ha]
  cases hy : X.getCol a with
  | error e => simp only [hy, except_bind_err]
  | ok y =>
    simp only [hy, except_bind_ok]
    rw [confounderColumns_setCol_ne X "propensity score" q conf hwf hlen hconf]
    cases hc : confounderColumns X conf with
    | error e => simp only [hc, except_bind_err]
    | ok cc =>
      simp only [hc, except_bind_ok]
      have hrowlen : (X.setCol "propensity score" q).rows.length
          = X.rows.length := X.setCol_rows_length _ q hlen
      have hconstmap : (X.setCol "propensity score" q).rows.map (fun _ => (1 : ℚ))
          = X.rows.map (fun _ => (1 : ℚ)) :=
        map_const_eq _ _ _ hrowlen
      rw [hconstmap, hrowlen]
      cases hm : lf y ((List.range X.rows.length).map (fun i =>
          (if int = true then cc ++ [("intercept", X.rows.map (fun _ => (1 : ℚ)))]
            else cc).map (fun p => p.2.getD i 0))) with
      | error e => simp only [hm, except_bind_err]
      | ok model =>
        simp only [hm, except_bind_ok]
        rw [X.setCol_setCol_same "propensity score" q _ hwf hlen]

theorem estimate_ATT_setCol_ps (lf : LogitFit) (nf : NNFit)
    (st : Option LogitModel) (X : DataFrame) (a o : String)
    (conf : List (String × String)) (n : ℕ) (q : List ℚ) (hwf : X.WF)
    (hlen : q.length = X.rows.length) (ha : a ≠ "propensity score")
    (hconf : ∀ p ∈ conf, p.1 ≠ "propensity score") :
    estimate_ATT lf nf st (X.setCol "propensity score" q) a o conf n
      = estimate_ATT lf nf st X a o conf n := by
  unfold estimate_ATT
  rw [score_setCol_ps lf st X conf a false true q hwf hlen ha hconf]

theorem estimate_ATC_setCol_ps (lf : LogitFit) (nf : NNFit)
    (st : Option LogitModel) (X : DataFrame) (a o : String)
    (conf : List (String × String)) (n : ℕ) (q : List ℚ) (hwf : X.WF)
    (hlen : q.length = X.rows.length) (ha : a ≠ "propensity score")
    (hconf : ∀ p ∈ conf, p.1 ≠ "propensity score") :
    estimate_ATC lf nf st (X.setCol "propensity score" q) a o conf n
      = estimate_ATC lf nf st X a o conf n := by
  unfold estimate_ATC
  rw [X.getCol_setCol_ne "propensity score" a q hwf hlen ha]
  cases hy : X.getCol a with
  | error e => simp only [hy, except_bind_err]
  | ok aCol =>
    simp only [hy, except_bind_ok]
    obtain ⟨j, hj⟩ := X.getCol_ok_colIdx a aCol hy
    rw [X.setCol_comm_present "propensity score" a q
      (aCol.map (fun v => pymod2 (v + 1))) j hj (Ne.symm ha) hwf]
    rw [estimate_ATT_setCol_ps lf nf st
      (X.setCol a (aCol.map (fun v => pymod2 (v + 1)))) a o conf n q
      (X.setCol_WF a _ hwf)
      (by
        rw [X.setCol_rows_length a _ (by
          simp [X.getCol_ok_length a aCol hy])]
        exact hlen)
      ha hconf]

theorem estimate_ATT_ok_state (lf : LogitFit) (nf : NNFit)
    (st : Option LogitModel) (X : DataFrame) (a o : String)
    (conf : List (String × String)) (n : ℕ) (v : ℚ) (X1 : DataFrame)
    (st1 : Option LogitModel)
    (h : estimate_ATT lf nf st X a o conf n = .ok (v, X1, st1)) :
    st1 = st ∧ ∃ preds : List ℚ, preds.length = X.rows.length
      ∧ X1 = X.setCol "propensity score" preds := by
  unfold estimate_ATT at h
  cases hs : score lf st X conf a false true with
  | error e => rw [hs, except_bind_err] at h; exact absurd h (by simp)
  | ok p =>
    obtain ⟨Xs, sts⟩ := p
    rw [hs, except_bind_ok] at h
    dsimp only at h
    obtain ⟨preds, hplen, hXs, hsts⟩ :=
      score_ok_shape lf st X conf a false true Xs sts hs
    cases hq : psmMatch nf n Xs a "propensity score" with
    | error e => rw [hq, except_bind_err] at h; exact absurd h (by simp)
    | ok q =>
      obtain ⟨T, M, C⟩ := q
      rw [hq, except_bind_ok] at h
      cases ht : estimate_treatments T M C o with
      | error e => rw [ht, except_bind_err] at h; exact absurd h (by simp)
      | ok T1 =>
        rw [ht, except_bind_ok] at h
        cases hy1 : T1.getCol o with
        | error e => rw [hy1, except_bind_err] at h; exact absurd h (by simp)
        | ok yT =>
          rw [hy1, except_bind_ok] at h
          cases hy2 : T1.getCol "control outcome" with
          | error e => rw [hy2, except_bind_err] at h; exact absurd h (by simp)
          | ok yC =>
            rw [hy2, except_bind_ok] at h
            simp only [except_pure, Except.ok.injEq, Prod.mk.injEq] at h
            exact ⟨h.2.2 ▸ hsts rfl, preds, hplen, h.2.1 ▸ hXs⟩

theorem psmMatch_ok_shape (nf : NNFit) (n : ℕ) (X : DataFrame)
    (a s : String) (T : DataFrame) (M : List (List ℕ)) (C : DataFrame)
    (h : psmMatch nf n X a s = .ok (T, M, C)) :
    (X.filterEq a 1 = .ok T) ∧ (X.filterEq a 0 = .ok C)
      ∧ M.length = T.rows.length := by
  unfold psmMatch at h
  cases h1 : X.filterEq a 1 with
  | error e => rw [h1, except_bind_err] at h; exact absurd h (by simp)
  | ok T' =>
    rw [h1, except_bind_ok] at h
    cases h0 : X.filterEq a 0 with
    | error e => rw [h0, except_bind_err] at h; exact absurd h (by simp)
    | ok C' =>
      rw [h0, except_bind_ok] at h
      cases h2 : C'.getCol s with
      | error e => rw [h2, except_bind_err] at h; exact absurd h (by simp)
      | ok cs =>
        rw [h2, except_bind_ok] at h
        cases h3 : nf n cs with
        | error e => rw [h3, except_bind_err] at h; exact absurd h (by simp)
        | ok nn =>
          rw [h3, except_bind_ok] at h
          cases h4 : T'.getCol s with
          | error e => rw [h4, except_bind_err] at h; exact absurd h (by simp)
          | ok ts =>
            rw [h4, except_bind_ok] at h
            simp only [except_pure, Except.ok.injEq, Prod.mk.injEq] at h
            obtain ⟨hT, hM, hC⟩ := h
            refine ⟨by rw [hT], by rw [hC], ?_⟩
            rw [← hM, ← hT]
            simp [T'.getCol_ok_length s ts h4]

/-! Claim theorems. -/

/-- C1: the claim states that `average_treatment_effect` partitions and
extracts values using exactly the column names passed as parameters, so that
renaming the columns and passing the new names yields the same result as the
defaults.  The code contradicts its own signature: the parameters are
declared but the body indexes the hard-coded names, so every call behaves as
if the defaults had been passed (first conjunct), and a table with renamed
columns `A`/`S`/`E` called with those names raises `KeyError` instead of
computing the effect (second conjunct). -/
theorem did_column_params_ignored :
    (∀ (fit : RegFit) (X : DataFrame) (s e a : String),
      average_treatment_effect fit X s e a
        = average_treatment_effect fit X "Start" "End" "Assignment")
    ∧ average_treatment_effect fitOk renamedDiD "S" "E" "A"
        = .error .keyError :=
  ⟨fun _ _ _ _ _ => rfl, rfl⟩

/-- C9: the claim states that `calculate_balance` returns the standardized
mean difference.  The function can never return: its body references `np`
(numpy) which the module never imports, so any call either fails earlier
with a `KeyError` (missing column) or raises `NameError` at line 225 (first
conjunct); in particular it raises `NameError` on a well-formed table
(second conjunct). -/
theorem calculate_balance_always_raises :
    (∀ (X : DataFrame) (x d : String),
      calculate_balance X x d = .error .keyError
        ∨ calculate_balance X x d = .error .nameError)
    ∧ calculate_balance balanceTable "x" "d" = .error .nameError := by
  refine ⟨fun X x d => ?_, rfl⟩
  unfold calculate_balance
  cases hd : X.colIdx d with
  | none =>
    left
    rw [DataFrame.filterEq_eq_err X d 1 ((X.colIdx_eq_none_iff d).mp hd),
      except_bind_err]
  | some i =>
    rw [X.filterEq_eq_ok d 1 i hd, except_bind_ok]
    cases hx : findCol X.cols x with
    | none =>
      left
      rw [DataFrame.getCol_eq_err
        ⟨X.cols, X.rows.filter (fun r => decide (r.getD i 0 = 1))⟩ x
        ((findCol_eq_none_iff X.cols x).mp hx), except_bind_err]
    | some j =>
      rw [DataFrame.getCol_eq_ok
        ⟨X.cols, X.rows.filter (fun r => decide (r.getD i 0 = 1))⟩ x j hx,
        except_bind_ok]
      rw [X.filterEq_eq_ok d 0 i hd, except_bind_ok]
      rw [DataFrame.getCol_eq_ok
        ⟨X.cols, X.rows.filter (fun r => decide (r.getD i 0 = 0))⟩ x j hx,
        except_bind_ok]
      right
      rfl

/-- C6: the claim states that `score` raises a `DataError` for any
confounder type tag outside the recognized set.  The code has no such check:
the branch on the tag only tests for `'o'`/`'u'` and its `else` silently
passes the confounder through as continuous, so any two tags outside
`{'o','u'}` (recognized or not) give identical behaviour. -/
theorem score_tag_invariance (lf : LogitFit) (st : Option LogitModel)
    (X : DataFrame) (a : String) (store int : Bool) (c t1 t2 : String)
    (rest : List (String × String))
    (h1 : ¬(t1 = "o" ∨ t1 = "u")) (h2 : ¬(t2 = "o" ∨ t2 = "u")) :
    score lf st X ((c, t1) :: rest) a store int
      = score lf st X ((c, t2) :: rest) a store int := by
  have hcc : confounderColumns X ((c, t1) :: rest)
      = confounderColumns X ((c, t2) :: rest) := by
    simp only [confounderColumns, if_neg h1, if_neg h2]
  unfold score
  rw [hcc]

/-- C6 witness: at the unrecognized tag `"q"` and the recognized continuous
tag `"c"`, `score` computes identically on a concrete table. -/
theorem score_tag_invariance_witness :
    (¬("q" = "o" ∨ "q" = "u")) ∧ (¬("c" = "o" ∨ "c" = "u"))
    ∧ score constLogitFit none egTagTable [("z", "q")] "assignment" false true
        = score constLogitFit none egTagTable [("z", "c")] "assignment" false true :=
  ⟨by decide, by decide,
    score_tag_invariance constLogitFit none egTagTable "assignment" false true
      "z" "q" "c" [] (by decide) (by decide)⟩

/-- C6 counterexample: with the unrecognized type tag `"q"` (not one of
continuous/ordinal/discrete), `score` succeeds instead of raising any
error — the tag is silently treated as continuous. -/
theorem score_unrecognized_tag_no_error :
    (score constLogitFit none egTagTable [("z", "q")] "assignment" false true).isOk
      = true
    ∧ score constLogitFit none egTagTable [("z", "q")] "assignment" false true
        = score constLogitFit none egTagTable [("z", "c")] "assignment" false true :=
  ⟨rfl, rfl⟩

/-- C7: the claim states that `match` raises a `DataError` when the control
subset is empty.  `match` contains no such check: with an empty control
subset it simply hands the empty score list to the external nearest-neighbour
collaborator, whose failure (sklearn's `ValueError`) propagates unchanged —
no `DataError` is ever constructed by `match`. -/
theorem match_empty_control (nf : NNFit) (n : ℕ) (X : DataFrame)
    (a s : String) (i : ℕ)
    (hfit : nf n [] = .error .valueError)
    (hidx : X.colIdx a = some i)
    (hs : s ∈ X.cols)
    (hempty : X.rows.filter (fun r => decide (r.getD i 0 = 0)) = []) :
    psmMatch nf n X a s = .error .valueError := by
  unfold psmMatch
  rw [X.filterEq_eq_ok a 1 i hidx, except_bind_ok]
  rw [X.filterEq_eq_ok a 0 i hidx, except_bind_ok]
  cases hsj : findCol X.cols s with
  | none => exact absurd hs ((findCol_eq_none_iff X.cols s).mp hsj)
  | some j =>
    rw [DataFrame.getCol_eq_ok
      ⟨X.cols, X.rows.filter (fun r => decide (r.getD i 0 = 0))⟩ s j hsj,
      except_bind_ok]
    rw [show (⟨X.cols, X.rows.filter (fun r => decide (r.getD i 0 = 0))⟩ :
      DataFrame).rows = [] from hempty]
    rw [List.map_nil, hfit, except_bind_err]

/-- C7 witness: on a concrete scored table with one treated row and no
control rows, with the sklearn-modelled collaborator, `match` fails with
`ValueError`. -/
theorem match_empty_control_witness :
    psmMatch sklearnNN 2 oneTreatedTable "assignment" "propensity score"
      = .error .valueError :=
  match_empty_control sklearnNN 2 oneTreatedTable "assignment"
    "propensity score" 0 rfl rfl (by decide) rfl

/-- C7 counterexample: on a concrete table whose control subset is empty,
`match` produces the external collaborator's `ValueError`, not the
`DataError` the claim requires. -/
theorem match_empty_control_not_data_error :
    psmMatch sklearnNN 3 oneTreatedTable "assignment" "propensity score"
      = .error .valueError
    ∧ decide (PyErr.valueError = PyErr.dataError) = false :=
  ⟨rfl, by decide⟩

/-- C8: the claim states that `score` leaves the caller-supplied table
unchanged, the `'propensity score'` augmentation being visible only in the
returned value.  In the source the returned frame is the caller's own frame,
mutated in place by line 121, which the embedding exposes as the single
frame in the result.  On a successful call that frame is exactly the input
with the `'propensity score'` column set (every other column unchanged). -/
theorem score_mutation_shape (lf : LogitFit) (st : Option LogitModel)
    (X : DataFrame) (conf : List (String × String)) (a : String)
    (store int : Bool) (X' : DataFrame) (st' : Option LogitModel)
    (hwf : X.WF)
    (h : score lf st X conf a store int = .ok (X', st')) :
    ∃ preds : List ℚ, preds.length = X.rows.length
      ∧ X' = X.setCol "propensity score" preds
      ∧ ∀ c, c ≠ "propensity score" → X'.getCol c = X.getCol c := by
  obtain ⟨preds, hplen, hX', _⟩ :=
    score_ok_shape lf st X conf a store int X' st' h
  refine ⟨preds, hplen, hX', fun c hc => ?_⟩
  rw [hX']
  exact X.getCol_setCol_ne "propensity score" c preds hwf hplen hc

/-- C8 witness: a concrete successful `score` call, to which the mutation
shape theorem applies. -/
theorem score_mutation_shape_witness :
    score constLogitFit none egTagTable [] "assignment" false true
      = .ok (⟨["assignment", "z", "propensity score"],
          [[1, 3, 1], [0, 4, 1]]⟩, none)
    ∧ ∃ preds : List ℚ, preds.length = egTagTable.rows.length
      ∧ (⟨["assignment", "z", "propensity score"], [[1, 3, 1], [0, 4, 1]]⟩ :
          DataFrame) = egTagTable.setCol "propensity score" preds
      ∧ ∀ c, c ≠ "propensity score" →
          (⟨["assignment", "z", "propensity score"], [[1, 3, 1], [0, 4, 1]]⟩ :
            DataFrame).getCol c = egTagTable.getCol c :=
  ⟨rfl, score_mutation_shape constLogitFit none egTagTable [] "assignment"
    false true _ none (by decide) rfl⟩

/-- C8 counterexample: on a concrete table, the frame `score` hands back —
which in the source is the caller's own table object after the call — is not
equal to the input table: the caller's table has gained the
`'propensity score'` column, so the call is not effect-free on its
argument. -/
theorem score_not_effect_free :
    score constLogitFit none egTagTable [] "assignment" false true
      = .ok (⟨["assignment", "z", "propensity score"],
          [[1, 3, 1], [0, 4, 1]]⟩, none)
    ∧ decide ((⟨["assignment", "z", "propensity score"],
        [[1, 3, 1], [0, 4, 1]]⟩ : DataFrame) = egTagTable) = false :=
  ⟨rfl, by decide⟩

theorem estimate_ATC_ok_state (lf : LogitFit) (nf : NNFit)
    (st : Option LogitModel) (X : DataFrame) (a o : String)
    (conf : List (String × String)) (n : ℕ) (v : ℚ)
    (st1 : Option LogitModel)
    (h : estimate_ATC lf nf st X a o conf n = .ok (v, st1)) : st1 = st := by
  unfold estimate_ATC at h
  cases hy : X.getCol a with
  | error e => rw [hy, except_bind_err] at h; exact absurd h (by simp)
  | ok aCol =>
    rw [hy, except_bind_ok] at h
    dsimp only at h
    cases hA : estimate_ATT lf nf st
        (X.setCol a (aCol.map (fun x => pymod2 (x + 1)))) a o conf n with
    | error e => rw [hA, except_bind_err] at h; exact absurd h (by simp)
    | ok p =>
      obtain ⟨att, X1, stt⟩ := p
      rw [hA, except_bind_ok] at h
      simp only [except_pure, Except.ok.injEq, Prod.mk.injEq] at h
      rw [← h.2]
      exact (estimate_ATT_ok_state lf nf st _ a o conf n att X1 stt hA).1

theorem estimate_ATE_ok_state (lf : LogitFit) (nf : NNFit)
    (st : Option LogitModel) (X : DataFrame) (a o : String)
    (conf : List (String × String)) (n : ℕ) (v : ℚ) (X' : DataFrame)
    (st1 : Option LogitModel)
    (h : estimate_ATE lf nf st X a o conf n = .ok (v, X', st1)) :
    st1 = st := by
  unfold estimate_ATE at h
  cases hA : estimate_ATT lf nf st X a o conf n with
  | error e => rw [hA, except_bind_err] at h; exact absurd h (by simp)
  | ok p =>
    obtain ⟨att, X1, sta⟩ := p
    rw [hA, except_bind_ok] at h
    dsimp only at h
    cases hC : estimate_ATC lf nf sta X1 a o conf n with
    | error e => rw [hC, except_bind_err] at h; exact absurd h (by simp)
    | ok q =>
      obtain ⟨atc, stc⟩ := q
      rw [hC, except_bind_ok] at h
      dsimp only at h
      cases hy : X1.getCol a with
      | error e => rw [hy, except_bind_err] at h; exact absurd h (by simp)
      | ok aCol =>
        rw [hy, except_bind_ok] at h
        cases hp : pyDiv (countEq aCol 1 : ℚ) (X1.rows.length : ℚ) with
        | error e => rw [hp, except_bind_err] at h; exact absurd h (by simp)
        | ok p =>
          rw [hp, except_bind_ok] at h
          simp only [except_pure, Except.ok.injEq, Prod.mk.injEq] at h
          rw [← h.2.2]
          rw [estimate_ATC_ok_state lf nf sta X1 a o conf n atc stc hC]
          exact (estimate_ATT_ok_state lf nf st X a o conf n att X1 sta hA).1

/-- C10: with `store_model_fit` left at its default `False` — as in every
internal call made by `estimate_ATT`, `estimate_ATC` and `estimate_ATE` —
the `propensity_score_model` attribute (threaded as the state component) is
never written: whatever the call returns, the state component equals the
state before the call. -/
theorem store_model_fit_default_no_write (lf : LogitFit) (nf : NNFit)
    (st : Option LogitModel) (X : DataFrame) (a o : String)
    (conf : List (String × String)) (int : Bool) (n : ℕ) :
    (∀ X' st', score lf st X conf a false int = .ok (X', st') → st' = st)
    ∧ (∀ v X' st', estimate_ATT lf nf st X a o conf n = .ok (v, X', st')
        → st' = st)
    ∧ (∀ v st', estimate_ATC lf nf st X a o conf n = .ok (v, st')
        → st' = st)
    ∧ (∀ v X' st', estimate_ATE lf nf st X a o conf n = .ok (v, X', st')
        → st' = st) := by
  refine ⟨fun X' st' h => ?_, fun v X' st' h => ?_, fun v st' h => ?_,
    fun v X' st' h => ?_⟩
  · obtain ⟨_, _, _, hst⟩ := score_ok_shape lf st X conf a false int X' st' h
    exact hst rfl
  · exact (estimate_ATT_ok_state lf nf st X a o conf n v X' st' h).1
  · exact estimate_ATC_ok_state lf nf st X a o conf n v st' h
  · exact estimate_ATE_ok_state lf nf st X a o conf n v X' st' h

/-- C10 witness: a concrete end-to-end `estimate_ATE` run that succeeds,
from which the no-write theorem yields that the stored model stayed `none`. -/
theorem store_model_fit_default_no_write_witness :
    estimate_ATE constLogitFit constNN none egTable "assignment" "outcome"
      [("z", "c")] 5 = .ok (2, egScored, none)
    ∧ (none : Option LogitModel) = none := by
  have hrun : estimate_ATE constLogitFit constNN none egTable "assignment"
      "outcome" [("z", "c")] 5 = .ok (2, egScored, none) := by
    norm_num +decide [estimate_ATE, estimate_ATC, estimate_ATT, score,
      confounderColumns, psmMatch, estimate_treatments, get_matched_outcome,
      mean, DataFrame.getCol, DataFrame.colIdx, DataFrame.filterEq,
      DataFrame.select, DataFrame.setCol, countEq, pyDiv, pymod2, findCol,
      constLogitFit, constNN, egTable, egScored, except_bind_ok,
      except_bind_err, List.zip_cons_cons, List.zip_nil_right,
      List.zip_nil_left, List.replicate_succ, List.replicate_zero,
      Function.comp]
  exact ⟨hrun,
    (store_model_fit_default_no_write constLogitFit constNN none egTable
      "assignment" "outcome" [("z", "c")] true 5).2.2.2 2 egScored none hrun⟩

theorem except_bind_ok2 {A B : Type} (a : A) (f : A → Except PyErr B) :
    (Except.ok a).bind f = f a := rfl

theorem except_bind_err2 {A B : Type} (e : PyErr) (f : A → Except PyErr B) :
    ((Except.error e : Except PyErr A)).bind f = .error e := rfl

theorem countEq_append (l1 l2 : List ℚ) (v : ℚ) :
    countEq (l1 ++ l2) v = countEq l1 v + countEq l2 v := by
  simp [countEq, List.countP_append]

theorem countEq_map_const (ys : List ℚ) (c v : ℚ) :
    countEq (ys.map (fun _ => c)) v = if c = v then ys.length else 0 := by
  induction ys with
  | nil => simp [countEq]
  | cons y t ih =>
    simp only [List.map_cons, countEq, List.countP_cons] at ih ⊢
    by_cases h : c = v <;> simp [h] at ih ⊢ <;> omega

theorem countEq_replicate (n : ℕ) (c v : ℚ) :
    countEq (List.replicate n c) v = if c = v then n else 0 := by
  induction n with
  | zero => simp [countEq]
  | succ m ih =>
    simp only [List.replicate_succ, countEq, List.countP_cons] at ih ⊢
    by_cases h : c = v <;> simp [h] at ih ⊢ <;> omega

theorem extraction_length (X : DataFrame) (v : ℚ) (c : String)
    (vals aCol : List ℚ) (ia : ℕ)
    (hia : X.colIdx "Assignment" = some ia)
    (haX : X.getCol "Assignment" = .ok aCol)
    (h : ((X.filterEq "Assignment" v).bind
        (fun T => T.select ["Start", "End"])).bind (fun T => T.getCol c)
      = .ok vals) :
    vals.length = countEq aCol v := by
  rw [X.filterEq_eq_ok "Assignment" v ia hia, except_bind_ok2] at h
  cases hsel : (⟨X.cols, X.rows.filter (fun r => decide (r.getD ia 0 = v))⟩ :
      DataFrame).select ["Start", "End"] with
  | error e => rw [hsel, except_bind_err2] at h; exact absurd h (by simp)
  | ok S =>
    rw [hsel, except_bind_ok2] at h
    rw [S.getCol_ok_length c vals h, DataFrame.select_ok_rows_length _ _ S hsel]
    rw [X.getCol_eq_ok "Assignment" ia hia] at haX
    simp only [Except.ok.injEq] at haX
    rw [← haX, countEq, List.countP_map, List.countP_eq_length_filter]
    rfl

/-- C3: the claim states that the panel built inside
`average_treatment_effect` has `2 * (t + c)` rows, that exactly one quarter
of the rows have `did` = 1, and that `did` = 1 holds only for test-post
rows.  Over the lists actually extracted from the table (given by the four
extraction hypotheses, which mirror lines 25-33 of the source), the panel
has `2 * (t + c)` rows and `did` = 1 on exactly the `t` test-post rows — so
the rows with `did` = 1 number `t`, the treated count, which is one quarter
of the panel only when `t = c` (the quarter part of the claim is refuted by
the counterexample theorem). -/
theorem did_panel_shape (X : DataFrame) (ti tf ci cf aCol : List ℚ) (ia : ℕ)
    (hia : X.colIdx "Assignment" = some ia)
    (haX : X.getCol "Assignment" = .ok aCol)
    (hti : ((X.filterEq "Assignment" 1).bind
        (fun T => T.select ["Start", "End"])).bind (fun T => T.getCol "Start")
      = .ok ti)
    (htf : ((X.filterEq "Assignment" 1).bind
        (fun T => T.select ["Start", "End"])).bind (fun T => T.getCol "End")
      = .ok tf)
    (hci : ((X.filterEq "Assignment" 0).bind
        (fun T => T.select ["Start", "End"])).bind (fun T => T.getCol "Start")
      = .ok ci)
    (hcf : ((X.filterEq "Assignment" 0).bind
        (fun T => T.select ["Start", "End"])).bind (fun T => T.getCol "End")
      = .ok cf) :
    (did_panel ti tf ci cf).rows.length
      = 2 * (countEq aCol 1 + countEq aCol 0)
    ∧ (∃ dl, (did_panel ti tf ci cf).getCol "did" = .ok dl
        ∧ countEq dl 1 = countEq aCol 1)
    ∧ ∀ r ∈ (did_panel ti tf ci cf).rows,
        r.getD 3 0 = 1 → r.getD 1 0 = 1 ∧ r.getD 2 0 = 1 := by
  have h1 := extraction_length X 1 "Start" ti aCol ia hia haX hti
  have h2 := extraction_length X 1 "End" tf aCol ia hia haX htf
  have h3 := extraction_length X 0 "Start" ci aCol ia hia haX hci
  have h4 := extraction_length X 0 "End" cf aCol ia hia haX hcf
  refine ⟨?_, ⟨(did_panel ti tf ci cf).rows.map (fun r => r.getD 3 0), ?_, ?_⟩, ?_⟩
  · simp only [did_panel, List.length_append, List.length_map]
    omega
  · exact DataFrame.getCol_eq_ok _ "did" 3 rfl
  · simp only [did_panel, List.map_append, List.map_map]
    norm_num [countEq_append, Function.comp_def, List.getElem?_cons_zero,
      List.getElem?_cons_succ, Option.getD_some, List.getD, countEq_map_const,
      countEq_replicate]
    omega
  · intro r hr hdid
    simp only [did_panel, List.mem_append, List.mem_map] at hr
    rcases hr with ((⟨y, hy, hry⟩ | ⟨y, hy, hry⟩) | ⟨y, hy, hry⟩) | ⟨y, hy, hry⟩ <;>
      rw [← hry] at hdid ⊢ <;>
      norm_num [List.getD_cons_succ, List.getD_cons_zero] at hdid ⊢

/-- C3 witness: the row-count identity of the panel-shape theorem evaluated
on a concrete table with 1 treated and 3 control rows. -/
theorem did_panel_shape_witness :
    (did_panel [10] [15] [10, 11, 12] [10, 11, 12]).rows.length
      = 2 * (countEq [1, 0, 0, 0] 1 + countEq [1, 0, 0, 0] 0) :=
  (did_panel_shape didTable4 [10] [15] [10, 11, 12] [10, 11, 12]
    [1, 0, 0, 0] 0 rfl rfl rfl rfl rfl rfl).1

/-- C3 counterexample: on a table with 1 treated and 3 control rows the
panel built inside `average_treatment_effect` (from exactly the lists the
source extracts, per the first four conjuncts) has 8 rows of which exactly
one — not one quarter, which would be two — has `did` = 1. -/
theorem did_panel_quarter_false :
    ((didTable4.filterEq "Assignment" 1).bind
        (fun T => T.select ["Start", "End"])).bind (fun T => T.getCol "Start")
      = .ok [10]
    ∧ ((didTable4.filterEq "Assignment" 1).bind
        (fun T => T.select ["Start", "End"])).bind (fun T => T.getCol "End")
      = .ok [15]
    ∧ ((didTable4.filterEq "Assignment" 0).bind
        (fun T => T.select ["Start", "End"])).bind (fun T => T.getCol "Start")
      = .ok [10, 11, 12]
    ∧ ((didTable4.filterEq "Assignment" 0).bind
        (fun T => T.select ["Start", "End"])).bind (fun T => T.getCol "End")
      = .ok [10, 11, 12]
    ∧ (did_panel [10] [15] [10, 11, 12] [10, 11, 12]).getCol "did"
        = .ok [0, 1, 0, 0, 0, 0, 0, 0]
    ∧ countEq [0, 1, 0, 0, 0, 0, 0, 0] 1 = 1
    ∧ (did_panel [10] [15] [10, 11, 12] [10, 11, 12]).rows.length = 8
    ∧ decide (4 * 1 = 8) = false := by
  refine ⟨rfl, rfl, rfl, rfl, ?_, rfl, ?_, by decide⟩
  · norm_num +decide [did_panel, DataFrame.getCol, DataFrame.colIdx, findCol,
      List.getD]
  · norm_num [did_panel]

theorem DataFrame.colIdx_isSome_iff (df : DataFrame) (c : String) :
    (df.colIdx c).isSome = true ↔ c ∈ df.cols := by
  constructor
  · intro h
    by_contra hc
    rw [(df.colIdx_eq_none_iff c).mpr hc] at h
    simp at h
  · intro h
    cases hx : df.colIdx c with
    | none => exact absurd h ((df.colIdx_eq_none_iff c).mp hx)
    | some i => rfl

theorem DataFrame.colIdx_mem_some (df : DataFrame) (c : String)
    (h : c ∈ df.cols) : ∃ i, df.colIdx c = some i := by
  cases hx : df.colIdx c with
  | none => exact absurd h ((df.colIdx_eq_none_iff c).mp hx)
  | some i => exact ⟨i, rfl⟩

theorem getCol_SE_start (rows : List (List ℚ)) :
    (⟨["Start", "End"], rows⟩ : DataFrame).getCol "Start"
      = .ok (rows.map (fun r => r.getD 0 0)) :=
  DataFrame.getCol_eq_ok _ _ 0 rfl

theorem getCol_SE_end (rows : List (List ℚ)) :
    (⟨["Start", "End"], rows⟩ : DataFrame).getCol "End"
      = .ok (rows.map (fun r => r.getD 1 0)) :=
  DataFrame.getCol_eq_ok _ _ 1 rfl

theorem did_panel_getCol_y (a b c d : List ℚ) :
    (did_panel a b c d).getCol "y"
      = .ok ((did_panel a b c d).rows.map (fun r => r.getD 0 0)) :=
  DataFrame.getCol_eq_ok _ _ 0 rfl

theorem did_panel_select_design (a b c d : List ℚ) :
    (did_panel a b c d).select ["t", "assignment", "did", "intercept"]
      = .ok ⟨["t", "assignment", "did", "intercept"],
          (did_panel a b c d).rows.map (fun r =>
            ["t", "assignment", "did", "intercept"].map (fun n =>
              r.getD (((did_panel a b c d).colIdx n).getD 0) 0))⟩ :=
  DataFrame.select_eq_ok _ _ rfl

/-- C5: the claim states that `average_treatment_effect` raises a
`DataError` on a missing required column or an empty partition, and an
`EstimationError` on a regression-convergence failure.  The code performs no
validation and no exception translation: a missing hard-coded column
surfaces as the pandas `KeyError` (first conjunct); when all three columns
are present, whatever error the regression collaborator raises propagates to
the caller completely unchanged — it is not swallowed, but neither is it
converted to an `EstimationError` (second conjunct).  No `DataError` is
raised on an empty partition (see the counterexample theorem, where an
empty test partition yields a successful fit). -/
theorem did_error_behavior (fit : RegFit) (er : PyErr) (X : DataFrame)
    (s e a : String) :
    ((¬("Assignment" ∈ X.cols ∧ "Start" ∈ X.cols ∧ "End" ∈ X.cols)) →
      average_treatment_effect fit X s e a = .error .keyError)
    ∧ ((∀ yv dv, fit yv dv = .error er) →
      "Assignment" ∈ X.cols → "Start" ∈ X.cols → "End" ∈ X.cols →
      average_treatment_effect fit X s e a = .error er) := by
  constructor
  · intro hmiss
    unfold average_treatment_effect
    by_cases hA : "Assignment" ∈ X.cols
    · obtain ⟨ia, hia⟩ := X.colIdx_mem_some "Assignment" hA
      rw [X.filterEq_eq_ok "Assignment" 1 ia hia, except_bind_ok]
      have hsel : (⟨X.cols, X.rows.filter (fun r => decide (r.getD ia 0 = 1))⟩ :
          DataFrame).select ["Start", "End"] = .error .keyError := by
        apply DataFrame.select_eq_err
        intro hall
        simp only [List.all_cons, List.all_nil, Bool.and_true,
          Bool.and_eq_true, DataFrame.colIdx_isSome_iff] at hall
        exact hmiss ⟨hA, hall.1, hall.2⟩
      rw [hsel, except_bind_err]
    · rw [DataFrame.filterEq_eq_err X "Assignment" 1 hA, except_bind_err]
  · intro hfit hA hS hE
    obtain ⟨ia, hia⟩ := X.colIdx_mem_some "Assignment" hA
    unfold average_treatment_effect
    rw [X.filterEq_eq_ok "Assignment" 1 ia hia, except_bind_ok]
    have hall1 : (["Start", "End"].all fun n =>
        ((⟨X.cols, X.rows.filter (fun r => decide (r.getD ia 0 = 1))⟩ :
          DataFrame).colIdx n).isSome) = true := by
      simp only [List.all_cons, List.all_nil, Bool.and_true,
        Bool.and_eq_true, DataFrame.colIdx_isSome_iff]
      exact ⟨hS, hE⟩
    rw [DataFrame.select_eq_ok _ _ hall1, except_bind_ok]
    rw [X.filterEq_eq_ok "Assignment" 0 ia hia, except_bind_ok]
    have hall0 : (["Start", "End"].all fun n =>
        ((⟨X.cols, X.rows.filter (fun r => decide (r.getD ia 0 = 0))⟩ :
          DataFrame).colIdx n).isSome) = true := by
      simp only [List.all_cons, List.all_nil, Bool.and_true,
        Bool.and_eq_true, DataFrame.colIdx_isSome_iff]
      exact ⟨hS, hE⟩
    rw [DataFrame.select_eq_ok _ _ hall0, except_bind_ok]
    rw [getCol_SE_start, except_bind_ok]
    rw [getCol_SE_end, except_bind_ok]
    rw [getCol_SE_start, except_bind_ok]
    rw [getCol_SE_end, except_bind_ok]
    dsimp only
    rw [did_panel_getCol_y, except_bind_ok]
    rw [did_panel_select_design, except_bind_ok]
    rw [hfit _ _, except_bind_err]

/-- C5 witness: both branches of the error-behaviour theorem at concrete
inputs — a table lacking `Start` yields `KeyError`, and on a complete table
a collaborator that always fails with `ValueError` makes the call fail with
exactly that `ValueError`. -/
theorem did_error_behavior_witness :
    average_treatment_effect fitOk missingStartTable "Start" "End" "Assignment"
      = .error .keyError
    ∧ average_treatment_effect failFit didTable4 "Start" "End" "Assignment"
      = .error .valueError :=
  ⟨(did_error_behavior fitOk PyErr.keyError missingStartTable "Start" "End"
      "Assignment").1 (by decide),
   (did_error_behavior failFit PyErr.valueError didTable4 "Start" "End"
      "Assignment").2 (fun _ _ => rfl) (by decide) (by decide) (by decide)⟩

/-- C5 counterexample: a missing required column raises `KeyError`, not
`DataError`; an empty test partition raises nothing at all (the regression
simply runs on the remaining rows); and a failing regression surfaces as the
collaborator's own error (`ValueError` here), not as `EstimationError`. -/
theorem did_error_kinds_concrete :
    average_treatment_effect fitOk missingStartTable "Start" "End" "Assignment"
      = .error .keyError
    ∧ decide (PyErr.keyError = PyErr.dataError) = false
    ∧ average_treatment_effect fitOk controlOnlyDiD "Start" "End" "Assignment"
      = .ok (0, 0, 0)
    ∧ average_treatment_effect failFit didTable4 "Start" "End" "Assignment"
      = .error .valueError
    ∧ decide (PyErr.valueError = PyErr.estimationError) = false :=
  ⟨rfl, by decide, rfl, rfl, by decide⟩

theorem sum_map_div (l : List ℚ) (k : ℚ) :
    (l.map (fun x => x / k)).sum = l.sum / k := by
  induction l with
  | nil => simp
  | cons x t ih => simp [ih, add_div]

theorem get_matched_outcome_eq_mean (cOut : List ℚ) (m : List ℕ) :
    get_matched_outcome cOut m = mean (m.map (fun i => cOut.getD i 0)) := by
  unfold get_matched_outcome mean
  rw [List.length_map]
  rw [show m.map (fun i => cOut.getD i 0 / (m.length : ℚ))
      = (m.map (fun i => cOut.getD i 0)).map (fun x => x / (m.length : ℚ)) by
    rw [List.map_map]
    rfl]
  rw [sum_map_div]

/-- C4: the claim states that on a scored-and-matched input, `estimate_ATT`
returns `mean(outcome) - mean(control outcome)` over the treated rows, where
each treated row's control outcome is the unweighted mean of the outcome
values of its matched control rows.  Given the scoring and matching steps
(hypotheses `hscore` and `hmatch`, exactly the two calls `estimate_ATT`
itself makes), the returned value is the mean of the treated outcome column
minus the mean of the per-row matched-control means — each of a row's `k`
matches contributing weight `1/k`. -/
theorem estimate_ATT_mean_difference (lf : LogitFit) (nf : NNFit)
    (st : Option LogitModel) (X : DataFrame) (a o : String)
    (conf : List (String × String)) (n : ℕ)
    (hwf : X.WF) (ho : o ≠ "control outcome")
    (X1 : DataFrame) (st1 : Option LogitModel)
    (hscore : score lf st X conf a false true = .ok (X1, st1))
    (T : DataFrame) (M : List (List ℕ)) (C : DataFrame)
    (hmatch : psmMatch nf n X1 a "propensity score" = .ok (T, M, C))
    (cOut tOut : List ℚ)
    (hC : C.getCol o = .ok cOut)
    (hT : T.getCol o = .ok tOut) :
    estimate_ATT lf nf st X a o conf n
      = .ok (mean tOut
          - mean (M.map (fun m => mean (m.map (fun i => cOut.getD i 0)))),
          X1, st1) := by
  unfold estimate_ATT
  rw [hscore, except_bind_ok]
  dsimp only
  rw [hmatch, except_bind_ok]
  dsimp only
  have hT1 : estimate_treatments T M C o
      = .ok (T.setCol "control outcome" (M.map (get_matched_outcome cOut))) := by
    unfold estimate_treatments
    rw [hC, except_bind_ok]
    rfl
  rw [hT1, except_bind_ok]
  obtain ⟨preds, hplen, hX1, _⟩ :=
    score_ok_shape lf st X conf a false true X1 st1 hscore
  have hX1wf : X1.WF := hX1 ▸ X.setCol_WF _ preds hwf
  obtain ⟨hT_eq, _, hMlen⟩ :=
    psmMatch_ok_shape nf n X1 a "propensity score" T M C hmatch
  have hTwf : T.WF := X1.filterEq_ok_WF a 1 T hX1wf hT_eq
  have hvals_len : (M.map (get_matched_outcome cOut)).length = T.rows.length := by
    simp [hMlen]
  rw [T.getCol_setCol_ne "control outcome" o _ hTwf hvals_len ho]
  rw [hT, except_bind_ok]
  rw [T.getCol_setCol_self "control outcome" _ hTwf hvals_len, except_bind_ok]
  rw [show (get_matched_outcome cOut)
      = fun m => mean (m.map (fun i => cOut.getD i 0)) from
    funext (get_matched_outcome_eq_mean cOut)]
  rfl

/-- C4 witness: the mean-difference theorem applied to a concrete
scored-and-matched run; on this table the treated outcome mean is
`mean [5]` and the single treated row's matched-control mean is `mean [3]`. -/
theorem estimate_ATT_mean_difference_witness :
    estimate_ATT constLogitFit constNN none egTable "assignment" "outcome"
      [("z", "c")] 5
      = .ok (mean [5]
          - mean ([[0]].map (fun m => mean (m.map (fun i => [3].getD i 0)))),
          egScored, none) :=
  estimate_ATT_mean_difference constLogitFit constNN none egTable
    "assignment" "outcome" [("z", "c")] 5 (by decide) (by decide)
    egScored none rfl
    ⟨["assignment", "outcome", "z", "propensity score"], [[1, 5, 2, 1]]⟩
    [[0]]
    ⟨["assignment", "outcome", "z", "propensity score"], [[0, 3, 1, 1]]⟩
    rfl [3] [5] rfl rfl

/-- C2: the claim states that `estimate_ATE` returns exactly
`p * ATT + (1 - p) * ATC`, where `p` is the treated fraction of the table,
ATT is what `estimate_ATT` returns and ATC what `estimate_ATC` returns on
the same table with the same arguments.  The identity holds: the internal
ATT call is literally `estimate_ATT` on the table; the internal ATC call
runs on the table as mutated by the ATT call (one `'propensity score'`
column added in place), which the `setCol` invariance lemmas show does not
change the ATC value; and the treated fraction read from the mutated table
equals the one read from the input.  The name-freshness hypotheses `ha` and
`hconf` record that neither the assignment column nor a confounder is
itself called `'propensity score'` (the column the pipeline reserves). -/
theorem estimate_ATE_decomposition (lf : LogitFit) (nf : NNFit)
    (st : Option LogitModel) (X : DataFrame) (a o : String)
    (conf : List (String × String)) (n : ℕ)
    (hwf : X.WF) (hne : X.rows ≠ [])
    (ha : a ≠ "propensity score")
    (hconf : ∀ p ∈ conf, p.1 ≠ "propensity score")
    (att atc : ℚ) (X1 : DataFrame) (st1 st2 : Option LogitModel)
    (aCol : List ℚ)
    (haX : X.getCol a = .ok aCol)
    (hatt : estimate_ATT lf nf st X a o conf n = .ok (att, X1, st1))
    (hatc : estimate_ATC lf nf st X a o conf n = .ok (atc, st2)) :
    estimate_ATE lf nf st X a o conf n
      = .ok (((countEq aCol 1 : ℚ) / (X.rows.length : ℚ)) * att
          + (1 - (countEq aCol 1 : ℚ) / (X.rows.length : ℚ)) * atc,
          X1, st2) := by
  obtain ⟨hst1, preds, hplen, hX1⟩ :=
    estimate_ATT_ok_state lf nf st X a o conf n att X1 st1 hatt
  unfold estimate_ATE
  rw [hatt, except_bind_ok]
  dsimp only
  rw [hst1, hX1]
  rw [estimate_ATC_setCol_ps lf nf st X a o conf n preds hwf hplen ha hconf]
  rw [hatc, except_bind_ok]
  dsimp only
  rw [X.getCol_setCol_ne "propensity score" a preds hwf hplen ha]
  rw [haX, except_bind_ok]
  rw [X.setCol_rows_length "propensity score" preds hplen]
  rw [show pyDiv (countEq aCol 1 : ℚ) (X.rows.length : ℚ)
      = .ok ((countEq aCol 1 : ℚ) / (X.rows.length : ℚ)) from by
    unfold pyDiv
    rw [if_neg]
    intro hc
    rw [Nat.cast_eq_zero] at hc
    exact hne (List.length_eq_zero.mp hc)]
  rw [except_bind_ok]
  rfl

/-- C2 witness: a concrete end-to-end run.  On `egTable` the treated
fraction is `1/2`, ATT and ATC both evaluate to `2`, and `estimate_ATE`
returns exactly `(1/2) * 2 + (1/2) * 2 = 2`. -/
theorem estimate_ATE_decomposition_witness :
    estimate_ATE constLogitFit constNN none egTable "assignment" "outcome"
      [("z", "c")] 5 = .ok (2, egScored, none) := by
  have hatt : estimate_ATT constLogitFit constNN none egTable "assignment"
      "outcome" [("z", "c")] 5 = .ok (2, egScored, none) := by
    norm_num +decide [estimate_ATT, score, confounderColumns, psmMatch,
      estimate_treatments, get_matched_outcome, mean, DataFrame.getCol,
      DataFrame.colIdx, DataFrame.filterEq, DataFrame.select,
      DataFrame.setCol, findCol, constLogitFit, constNN, egTable, egScored,
      except_bind_ok, except_bind_err, List.zip_cons_cons,
      List.zip_nil_right, List.zip_nil_left, List.replicate_succ,
      List.replicate_zero, Function.comp]
  have hatc : estimate_ATC constLogitFit constNN none egTable "assignment"
      "outcome" [("z", "c")] 5 = .ok (2, none) := by
    norm_num +decide [estimate_ATC, estimate_ATT, score, confounderColumns,
      psmMatch, estimate_treatments, get_matched_outcome, mean,
      DataFrame.getCol, DataFrame.colIdx, DataFrame.filterEq,
      DataFrame.select, DataFrame.setCol, findCol, pymod2, constLogitFit,
      constNN, egTable, egScored, except_bind_ok, except_bind_err,
      List.zip_cons_cons, List.zip_nil_right, List.zip_nil_left,
      List.replicate_succ, List.replicate_zero, Function.comp]
  have h := estimate_ATE_decomposition constLogitFit constNN none egTable
    "assignment" "outcome" [("z", "c")] 5 (by decide) (by decide) (by decide)
    (by decide) 2 2 egScored none none [1, 0] rfl hatt hatc
  rw [h]
  norm_num +decide [countEq, egTable]

end Causality
